import Mathlib

/-!
# Verification of the `iced_audio` horizontal-slider drag controller and range family

This file gives a shallow embedding of the interactive core of the
`iced_audio` widget library and proves the specified properties about it.

* The single-axis drag controller is translated from
  `src/native/h_slider.rs` (`HSlider::on_event`, `State::new`): the widget
  state, the event type and the event-handling step function.  `f32`
  arithmetic is modelled by exact rational arithmetic (`ℚ`); the only
  operations used by the controller are `+`, `-`, `*`, `/` and clamping,
  and IEEE rounding is abstracted away.
* The `Normal` / `Range` core module is not part of the given sources
  (only its callers are), so those definitions are modelled from the
  specification text, as marked in their doc comments.
* External toolkit types consumed by the controller (points, rectangles,
  modifier state, the click classifier) are modelled structurally; the
  click classifier is passed to the step function as an oracle, matching
  the specification's treatment of it as a consumed capability.
-/

namespace IcedAudio

/-- A 2-D point, as delivered with pointer events by the host toolkit. -/
structure Point where
  x : ℚ
  y : ℚ
deriving DecidableEq

/-- The widget bounds rectangle delivered with the layout. -/
structure Rectangle where
  x : ℚ
  y : ℚ
  width : ℚ
  height : ℚ
deriving DecidableEq

/-- Containment of a point in a rectangle, as used by the controller's
pointer-down test (modelled after the toolkit's rectangle containment). -/
def Rectangle.contains (r : Rectangle) (p : Point) : Prop :=
  r.x ≤ p.x ∧ p.x ≤ r.x + r.width ∧ r.y ≤ p.y ∧ p.y ≤ r.y + r.height

instance (r : Rectangle) (p : Point) : Decidable (r.contains p) := by
  unfold Rectangle.contains; infer_instance

/-- Keyboard modifier state, a snapshot of the four modifier keys. -/
structure ModifiersState where
  shift : Bool
  control : Bool
  alt : Bool
  logo : Bool
deriving DecidableEq

/-- The all-released modifier state (`Default::default()` in the source). -/
def ModifiersState.empty : ModifiersState :=
  { shift := false, control := false, alt := false, logo := false }

/-- `a.matches b`: the currently pressed modifiers `a` have at least the
modifiers of the configured set `b` enabled (the toolkit's
`ModifiersState::matches`, consumed by the controller). -/
def ModifiersState.matches (a b : ModifiersState) : Bool :=
  (!b.shift || a.shift) && (!b.control || a.control) &&
    (!b.alt || a.alt) && (!b.logo || a.logo)

/-- Result of the host's double/triple click classifier. -/
inductive ClickKind where
  | single
  | double
  | triple
deriving DecidableEq

/-- A classified click, as produced by `mouse::Click::new` and stored in
the widget state for the next classification. -/
structure Click where
  kind : ClickKind
  position : Point
deriving DecidableEq

/-- The click classifier consumed from the host toolkit: from the current
cursor position and the previously stored click it produces the new
classified click.  The controller treats it as an oracle. -/
def Classifier : Type :=
  Point → Option Click → Click

/-- Mouse buttons. -/
inductive MouseButton where
  | left
  | right
  | middle
deriving DecidableEq

/-- Mouse events handled (or ignored) by `on_event`. -/
inductive MouseEvent where
  | cursorMoved
  | buttonPressed (button : MouseButton)
  | buttonReleased (button : MouseButton)
  | cursorEntered
  | cursorLeft
  | wheelScrolled
deriving DecidableEq

/-- Keyboard events handled (or ignored) by `on_event`; key press/release
events carry the modifier snapshot used by the controller. -/
inductive KeyboardEvent where
  | keyPressed (modifiers : ModifiersState)
  | keyReleased (modifiers : ModifiersState)
  | characterReceived
deriving DecidableEq

/-- The toolkit event type, restricted to the payloads `on_event` reads. -/
inductive Event where
  | mouse (ev : MouseEvent)
  | keyboard (ev : KeyboardEvent)
  | window
deriving DecidableEq

/-- Modelled from the spec: the `Normal` core type is not under the given
sources.  A Normal is a unit-interval value; every constructor clamps into
`[0, 1]`.  `Normal.clamp` is the clamping conversion (`normal.into()` in
the controller). -/
def Normal.clamp (q : ℚ) : ℚ :=
  max 0 (min 1 q)

/-- Modelled from the spec: the `Param` core type is not under the given
sources.  It binds a user identifier to a current and a default Normal. -/
structure Param (ID : Type) where
  id : ID
  normal : ℚ
  default_normal : ℚ

/-- Modulation overlay attached to the widget state; display only, never
touched by the controller. -/
structure ModulationRange where
  start_normal : ℚ
  end_normal : ℚ
  visible : Bool
  filled_visible : Bool

/-- The local state of an `HSlider` (`h_slider::State`). -/
structure State (ID : Type) where
  param : Param ID
  modulation_range : Option ModulationRange
  is_dragging : Bool
  prev_drag_x : ℚ
  continuous_normal : ℚ
  pressed_modifiers : ModifiersState
  last_click : Option Click

/-- `State::new`: fresh widget state from a `Param`
(src/native/h_slider.rs, lines 195-205). -/
def State.new {ID : Type} (param : Param ID) : State ID :=
  { param := param
    modulation_range := none
    is_dragging := false
    prev_drag_x := 0
    continuous_normal := param.normal
    pressed_modifiers := ModifiersState.empty
    last_click := none }

/-- The widget configuration fields read by `on_event`: the base drag
scalar, the fine-adjustment scalar and the configured modifier set. -/
structure Config where
  scalar : ℚ
  modifier_scalar : ℚ
  modifier_keys : ModifiersState

/-- The default configuration built by `HSlider::new`
(`DEFAULT_SCALAR = 0.98`, `DEFAULT_MODIFIER_SCALAR = 0.02`, modifier
key `Ctrl`). -/
def Config.default : Config :=
  { scalar := 49/50
    modifier_scalar := 1/50
    modifier_keys := { ModifiersState.empty with control := true } }

/-- `HSlider::on_event` (src/native/h_slider.rs, lines 253-341), translated
clause by clause.  The change-notification callback is modelled by
collecting the pushed identifiers in the returned list (the source pushes
`on_change(param.id)` into the message vector). -/
def on_event {ID : Type} (cfg : Config) (classify : Classifier)
    (event : Event) (bounds : Rectangle) (cursor : Point)
    (s : State ID) : State ID × List ID :=
  match event with
  | Event.mouse MouseEvent.cursorMoved =>
      if s.is_dragging then
        if 0 < bounds.width then
          let movement_x0 := (cursor.x - s.prev_drag_x) / bounds.width
          let movement_x :=
            if s.pressed_modifiers.matches cfg.modifier_keys then
              movement_x0 * cfg.modifier_scalar
            else
              movement_x0 * cfg.scalar
          let normal := s.continuous_normal + movement_x
          ({ s with
              continuous_normal := normal
              prev_drag_x := cursor.x
              param := { s.param with normal := Normal.clamp normal } },
            [s.param.id])
        else (s, [])
      else (s, [])
  | Event.mouse (MouseEvent.buttonPressed MouseButton.left) =>
      if bounds.contains cursor then
        let click := classify cursor s.last_click
        match click.kind with
        | ClickKind.single =>
            ({ s with
                is_dragging := true
                prev_drag_x := cursor.x
                last_click := some click },
              [])
        | _ =>
            ({ s with
                is_dragging := false
                param := { s.param with normal := s.param.default_normal }
                last_click := some click },
              [s.param.id])
      else (s, [])
  | Event.mouse (MouseEvent.buttonReleased MouseButton.left) =>
      ({ s with
          is_dragging := false
          continuous_normal := s.param.normal },
        [])
  | Event.mouse _ => (s, [])
  | Event.keyboard (KeyboardEvent.keyPressed m) =>
      ({ s with pressed_modifiers := m }, [])
  | Event.keyboard (KeyboardEvent.keyReleased m) =>
      ({ s with pressed_modifiers := m }, [])
  | Event.keyboard _ => (s, [])
  | Event.window => (s, [])

/-! ## The Range family (spec-modelled)

The `Range` core module is not part of the given sources; the four
variants below are modelled from the specification's mapping-law table
and component contracts. -/

/-- Modelled from the spec: the Linear-Float range over `[min, max]`;
`normal = (v - min) / (max - min)`, inverse linear.  The source file for
`FloatRange` is not under the given sources. -/
structure FloatRange where
  min : ℚ
  max : ℚ

/-- Linear-Float `to_normal`: clamps out-of-bounds values into the nearest
valid Normal rather than failing. -/
def FloatRange.to_normal (r : FloatRange) (v : ℚ) : ℚ :=
  Normal.clamp ((v - r.min) / (r.max - r.min))

/-- Linear-Float `to_value`: total on Normals. -/
def FloatRange.to_value (r : FloatRange) (n : ℚ) : ℚ :=
  r.min + n * (r.max - r.min)

/-- Modelled from the spec: the Stepped-Int range over the integers of
`[min, max]`; the normal is computed linearly and values are snapped to
the nearest of `(max - min + 1)` equally spaced steps.  The source file
for `IntRange` is not under the given sources.  Ties at half-steps round
up (the spec does not fix the tie direction). -/
structure IntRange where
  min : ℤ
  max : ℤ

/-- Stepped-Int `to_normal`: linear position of an integer value, clamped. -/
def IntRange.to_normal (r : IntRange) (v : ℤ) : ℚ :=
  Normal.clamp (((v : ℚ) - (r.min : ℚ)) / ((r.max : ℚ) - (r.min : ℚ)))

/-- Stepped-Int `to_value`: the nearest integer of the range to the linear
image of the normal. -/
def IntRange.to_value (r : IntRange) (n : ℚ) : ℤ :=
  round ((r.min : ℚ) + n * ((r.max : ℚ) - (r.min : ℚ)))

/-- Stepped-Int `snap_normal`: replaces a Normal with the nearest of the
`(max - min + 1)` equally spaced step positions. -/
def IntRange.snap_normal (r : IntRange) (n : ℚ) : ℚ :=
  Normal.clamp ((round (n * ((r.max : ℚ) - (r.min : ℚ))) : ℚ) /
    ((r.max : ℚ) - (r.min : ℚ)))

/-- Modelled from the spec: the Logarithmic-DB range over `[min, max]`
decibels with `min < 0 < max` and a configurable zero position
`zero_position ∈ (0, 1)`.  The spec specifies a piecewise invertible law
with two slopes computed from min/max/zero position, one used below the
zero position and one above it; it is realized here as the piecewise map
whose two pieces join at `(0 dB, zero_position)`.  The source file for
`LogDBRange` is not under the given sources. -/
structure LogDBRange where
  min : ℚ
  max : ℚ
  zero_position : ℚ

/-- Logarithmic-DB `to_normal`: negative values map into
`[0, zero_position)` with the below-zero slope, nonnegative values into
`[zero_position, 1]` with the above-zero slope; out-of-bounds values are
clamped. -/
def LogDBRange.to_normal (r : LogDBRange) (v : ℚ) : ℚ :=
  Normal.clamp
    (if 0 ≤ v then
      r.zero_position + v / r.max * (1 - r.zero_position)
    else
      r.zero_position - v / r.min * r.zero_position)

/-- Logarithmic-DB `to_value`: the inverse of the piecewise law. -/
def LogDBRange.to_value (r : LogDBRange) (n : ℚ) : ℚ :=
  if r.zero_position ≤ n then
    (n - r.zero_position) / (1 - r.zero_position) * r.max
  else
    (r.zero_position - n) / r.zero_position * r.min

/-- Modelled from the spec: the Logarithmic-Frequency range over
`[min, max]` Hz (default 20 Hz - 20480 Hz, 10 octaves): each octave
occupies an equal normal-space slice,
`normal = log2 (f / min) / log2 (max / min)`, with inverse
`f = min * 2 ^ (normal * octaves)`.  The source file for `FreqRange` is
not under the given sources.  The transcendental law forces a real-valued
model. -/
structure FreqRange where
  min : ℝ
  max : ℝ

/-- The clamp of the Normal contract, on the real-valued model. -/
def Normal.clampR (x : ℝ) : ℝ :=
  max 0 (min 1 x)

/-- Logarithmic-Frequency `to_normal`:
`log2 (f / min) / log2 (max / min)`, clamped. -/
noncomputable def FreqRange.to_normal (r : FreqRange) (f : ℝ) : ℝ :=
  Normal.clampR (Real.logb 2 (f / r.min) / Real.logb 2 (r.max / r.min))

/-- Logarithmic-Frequency `to_value`: `min * 2 ^ (n * octaves)` where
`octaves = log2 (max / min)`. -/
noncomputable def FreqRange.to_value (r : FreqRange) (n : ℝ) : ℝ :=
  r.min * (2 : ℝ) ^ (n * Real.logb 2 (r.max / r.min))

/-! ## Concrete inputs used by witnesses and counterexamples -/

/-- A classifier that always reports a single click. -/
def singleClassify : Classifier :=
  fun p _ => { kind := ClickKind.single, position := p }

/-- A classifier that always reports a double click. -/
def doubleClassify : Classifier :=
  fun p _ => { kind := ClickKind.double, position := p }

/-- A 100-wide bounds rectangle at the origin. -/
def wideBounds : Rectangle :=
  { x := 0, y := 0, width := 100, height := 10 }

/-- A dragging state at normal `0.5` with no modifier held
(drag anchored at `x = 0`). -/
def midDragState : State ℕ :=
  { param := { id := 7, normal := 1/2, default_normal := 1/2 }
    modulation_range := none
    is_dragging := true
    prev_drag_x := 0
    continuous_normal := 1/2
    pressed_modifiers := ModifiersState.empty
    last_click := none }

/-- A dragging state whose unclamped accumulator overshot to `1.3` while
the clamped normal saturated at `1`. -/
def overshootState : State ℕ :=
  { param := { id := 3, normal := 1, default_normal := 1/2 }
    modulation_range := none
    is_dragging := true
    prev_drag_x := 50
    continuous_normal := 13/10
    pressed_modifiers := ModifiersState.empty
    last_click := none }

/-- The overshoot scenario after the left-button release. -/
def overshootReleased : State ℕ :=
  (on_event Config.default singleClassify
    (Event.mouse (MouseEvent.buttonReleased MouseButton.left))
    wideBounds { x := 50, y := 5 } overshootState).1

/-- The overshoot scenario after a subsequent single-click press at
`x = 50`. -/
def overshootPressed : State ℕ :=
  (on_event Config.default singleClassify
    (Event.mouse (MouseEvent.buttonPressed MouseButton.left))
    wideBounds { x := 50, y := 5 } overshootReleased).1

/-- The overshoot scenario after a small negative-delta move to `x = 49`. -/
def overshootMoved : State ℕ :=
  (on_event Config.default singleClassify
    (Event.mouse MouseEvent.cursorMoved)
    wideBounds { x := 49, y := 5 } overshootPressed).1

/-! ## Claim theorems -/

/-- C1: a pointer-move processed while Dragging with positive bounds width
computes `delta = (cursor.x - prev_drag_x) / bounds.width`, multiplies it
by the modifier scalar when the pressed modifiers match the configured set
and by the base scalar otherwise, adds the product to the unclamped
accumulator `continuous_normal`, writes the clamped accumulator into
`Param.normal`, updates `prev_drag_x` to the cursor x, and pushes exactly
one change notification carrying the Param's identifier. -/
theorem c1_cursor_move_while_dragging {ID : Type} (cfg : Config)
    (classify : Classifier) (bounds : Rectangle) (cursor : Point)
    (s : State ID) (hdrag : s.is_dragging = true) (hw : 0 < bounds.width) :
    (on_event cfg classify (Event.mouse MouseEvent.cursorMoved) bounds
        cursor s).1.continuous_normal =
      s.continuous_normal +
        (if s.pressed_modifiers.matches cfg.modifier_keys then
          (cursor.x - s.prev_drag_x) / bounds.width * cfg.modifier_scalar
        else
          (cursor.x - s.prev_drag_x) / bounds.width * cfg.scalar) ∧
    (on_event cfg classify (Event.mouse MouseEvent.cursorMoved) bounds
        cursor s).1.param.normal =
      Normal.clamp (s.continuous_normal +
        (if s.pressed_modifiers.matches cfg.modifier_keys then
          (cursor.x - s.prev_drag_x) / bounds.width * cfg.modifier_scalar
        else
          (cursor.x - s.prev_drag_x) / bounds.width * cfg.scalar)) ∧
    (on_event cfg classify (Event.mouse MouseEvent.cursorMoved) bounds
        cursor s).1.prev_drag_x = cursor.x ∧
    (on_event cfg classify (Event.mouse MouseEvent.cursorMoved) bounds
        cursor s).2 = [s.param.id] := by
  cases hmod : s.pressed_modifiers.matches cfg.modifier_keys <;>
    simp [on_event, hdrag, hw, hmod]

/-- C1 witness: starting at normal `0.5` with the default base scalar
`0.98`, no modifier held, a move whose delta is `+0.1` of the bounds width
yields `Param.normal = 0.5 + 0.1 * 0.98 = 0.598` and one notification. -/
theorem c1_cursor_move_while_dragging_witness :
    midDragState.is_dragging = true ∧ (0 : ℚ) < wideBounds.width ∧
    (on_event Config.default singleClassify
        (Event.mouse MouseEvent.cursorMoved) wideBounds { x := 10, y := 5 }
        midDragState).1.param.normal = 299/500 ∧
    (on_event Config.default singleClassify
        (Event.mouse MouseEvent.cursorMoved) wideBounds { x := 10, y := 5 }
        midDragState).2 = [7] := by
  have h := c1_cursor_move_while_dragging Config.default
    singleClassify wideBounds { x := 10, y := 5 } midDragState rfl
    (by norm_num [wideBounds])
  refine ⟨rfl, by norm_num [wideBounds], ?_, h.2.2.2⟩
  rw [h.2.1]
  norm_num [midDragState, wideBounds, Config.default, ModifiersState.matches,
    ModifiersState.empty, Normal.clamp]

/-- C2: a left-button press inside the bounds which the click classifier
reports as a double or triple click leaves the controller out of the
Dragging state, resets `Param.normal` to `default_normal`, and pushes
exactly one change notification carrying the Param's identifier. -/
theorem c2_double_click_reset {ID : Type} (cfg : Config)
    (classify : Classifier) (bounds : Rectangle) (cursor : Point)
    (s : State ID) (hin : bounds.contains cursor)
    (hkind : (classify cursor s.last_click).kind ≠ ClickKind.single) :
    (on_event cfg classify
        (Event.mouse (MouseEvent.buttonPressed MouseButton.left)) bounds
        cursor s).1.is_dragging = false ∧
    (on_event cfg classify
        (Event.mouse (MouseEvent.buttonPressed MouseButton.left)) bounds
        cursor s).1.param.normal = s.param.default_normal ∧
    (on_event cfg classify
        (Event.mouse (MouseEvent.buttonPressed MouseButton.left)) bounds
        cursor s).2 = [s.param.id] := by
  cases hclick : (classify cursor s.last_click).kind with
  | single => exact absurd hclick hkind
  | double => simp [on_event, hin, hclick]
  | triple => simp [on_event, hin, hclick]

/-- C2 witness: a double click at the center of the bounds from a fresh
state resets the normal to the default and emits one notification. -/
theorem c2_double_click_reset_witness :
    wideBounds.contains { x := 50, y := 5 } ∧
    (doubleClassify { x := 50, y := 5 }
        (State.new
          ({ id := 7, normal := 9/10, default_normal := 1/2 } :
            Param ℕ)).last_click).kind
      ≠ ClickKind.single ∧
    ((on_event Config.default doubleClassify
        (Event.mouse (MouseEvent.buttonPressed MouseButton.left)) wideBounds
        { x := 50, y := 5 }
        (State.new ({ id := 7, normal := 9/10, default_normal := 1/2 } : Param ℕ))).1.is_dragging
        = false ∧
      (on_event Config.default doubleClassify
        (Event.mouse (MouseEvent.buttonPressed MouseButton.left)) wideBounds
        { x := 50, y := 5 }
        (State.new ({ id := 7, normal := 9/10, default_normal := 1/2 } : Param ℕ))).1.param.normal
        = 1/2 ∧
      (on_event Config.default doubleClassify
        (Event.mouse (MouseEvent.buttonPressed MouseButton.left)) wideBounds
        { x := 50, y := 5 }
        (State.new ({ id := 7, normal := 9/10, default_normal := 1/2 } : Param ℕ))).2
        = [7]) := by
  refine ⟨by norm_num [Rectangle.contains, wideBounds],
    by simp [doubleClassify], ?_⟩
  have h := c2_double_click_reset Config.default doubleClassify
    wideBounds { x := 50, y := 5 }
    (State.new ({ id := 7, normal := 9/10, default_normal := 1/2 } : Param ℕ))
    (by norm_num [Rectangle.contains, wideBounds]) (by simp [doubleClassify])
  exact ⟨h.1, h.2.1, h.2.2⟩

/-- C3: every left-button release leaves the Dragging state and sets the
accumulator `continuous_normal` to the clamped `Param.normal`; in the
overshoot scenario an accumulator at `1.3` is resynchronized to `1.0` by
the release, so a subsequent single-click press followed by a small
negative-delta move immediately decreases `Param.normal` (no dead zone). -/
theorem c3_release_resync :
    (∀ {ID : Type} (cfg : Config) (classify : Classifier)
      (bounds : Rectangle) (cursor : Point) (s : State ID),
      (on_event cfg classify
          (Event.mouse (MouseEvent.buttonReleased MouseButton.left)) bounds
          cursor s).1.is_dragging = false ∧
      (on_event cfg classify
          (Event.mouse (MouseEvent.buttonReleased MouseButton.left)) bounds
          cursor s).1.continuous_normal = s.param.normal) ∧
    overshootState.continuous_normal = 13/10 ∧
    overshootReleased.continuous_normal = 1 ∧
    overshootMoved.param.normal < 1 := by
  refine ⟨fun cfg classify bounds cursor s => ?_,
    by norm_num [overshootState],
    by norm_num [overshootReleased, overshootState, on_event],
    by norm_num [overshootMoved, overshootPressed, overshootReleased,
      overshootState, on_event, singleClassify, Config.default, wideBounds,
      ModifiersState.matches, ModifiersState.empty, Normal.clamp,
      Rectangle.contains]⟩
  simp [on_event]

/-- Clamping is the identity on the unit interval (rational model). -/
theorem clamp_eq_self {q : ℚ} (h0 : 0 ≤ q) (h1 : q ≤ 1) :
    Normal.clamp q = q := by
  unfold Normal.clamp
  rw [min_eq_right h1]
  exact max_eq_right h0

/-- Clamping is the identity on the unit interval (real model). -/
theorem clampR_eq_self {x : ℝ} (h0 : 0 ≤ x) (h1 : x ≤ 1) :
    Normal.clampR x = x := by
  unfold Normal.clampR
  rw [min_eq_right h1]
  exact max_eq_right h0

/-- Round trips of the Linear-Float range: exact on valid normals and on
in-bounds values. -/
theorem floatRange_roundtrip (r : FloatRange) (hr : r.min < r.max) :
    (∀ n : ℚ, 0 ≤ n → n ≤ 1 → r.to_normal (r.to_value n) = n) ∧
    (∀ v : ℚ, r.min ≤ v → v ≤ r.max → r.to_value (r.to_normal v) = v) := by
  have hd : (0:ℚ) < r.max - r.min := sub_pos.mpr hr
  constructor
  · intro n h0 h1
    have key : (r.to_value n - r.min) / (r.max - r.min) = n := by
      unfold FloatRange.to_value
      field_simp
    unfold FloatRange.to_normal
    rw [key, clamp_eq_self h0 h1]
  · intro v hv0 hv1
    have h0 : 0 ≤ (v - r.min) / (r.max - r.min) :=
      div_nonneg (by linarith) hd.le
    have h1 : (v - r.min) / (r.max - r.min) ≤ 1 := by
      rw [div_le_one hd]
      linarith
    unfold FloatRange.to_normal FloatRange.to_value
    rw [clamp_eq_self h0 h1]
    field_simp

/-- Round trips of the Stepped-Int range: exact on in-bounds integer
values; on normals the round trip lands on the snapped normal, hence
reproduces exactly the normals that are already snapped. -/
theorem intRange_roundtrip (r : IntRange) (hr : r.min < r.max) :
    (∀ v : ℤ, r.min ≤ v → v ≤ r.max → r.to_value (r.to_normal v) = v) ∧
    (∀ n : ℚ, r.to_normal (r.to_value n) = r.snap_normal n) ∧
    (∀ n : ℚ, r.snap_normal n = n → r.to_normal (r.to_value n) = n) := by
  have hd : (0:ℚ) < (r.max:ℚ) - (r.min:ℚ) := by
    rw [sub_pos]
    exact_mod_cast hr
  have hsnap : ∀ n : ℚ, r.to_normal (r.to_value n) = r.snap_normal n := by
    intro n
    unfold IntRange.to_normal IntRange.to_value IntRange.snap_normal
    rw [round_int_add]
    congr 1
    push_cast
    ring
  refine ⟨?_, hsnap, fun n h => (hsnap n).trans h⟩
  intro v hv0 hv1
  have h0 : 0 ≤ ((v:ℚ) - (r.min:ℚ)) / ((r.max:ℚ) - (r.min:ℚ)) := by
    apply div_nonneg _ hd.le
    rw [sub_nonneg]
    exact_mod_cast hv0
  have h1 : ((v:ℚ) - (r.min:ℚ)) / ((r.max:ℚ) - (r.min:ℚ)) ≤ 1 := by
    rw [div_le_one hd]
    have hv : (v:ℚ) ≤ (r.max:ℚ) := by exact_mod_cast hv1
    linarith
  unfold IntRange.to_normal IntRange.to_value
  rw [clamp_eq_self h0 h1, div_mul_cancel₀ _ hd.ne', add_sub_cancel]
  exact round_intCast v

/-- Round trips of the Logarithmic-DB range: exact on valid normals and on
in-bounds values, across both pieces of the law. -/
theorem logDBRange_roundtrip (r : LogDBRange) (hmin : r.min < 0)
    (hmax : 0 < r.max) (hz0 : 0 < r.zero_position)
    (hz1 : r.zero_position < 1) :
    (∀ n : ℚ, 0 ≤ n → n ≤ 1 → r.to_normal (r.to_value n) = n) ∧
    (∀ v : ℚ, r.min ≤ v → v ≤ r.max → r.to_value (r.to_normal v) = v) := by
  have h1z : (0:ℚ) < 1 - r.zero_position := by linarith
  constructor
  · intro n h0 h1
    by_cases hzn : r.zero_position ≤ n
    · have hv : 0 ≤ (n - r.zero_position) / (1 - r.zero_position) * r.max :=
        mul_nonneg (div_nonneg (by linarith) h1z.le) hmax.le
      unfold LogDBRange.to_value LogDBRange.to_normal
      rw [if_pos hzn, if_pos hv]
      have key : r.zero_position +
          (n - r.zero_position) / (1 - r.zero_position) * r.max / r.max *
            (1 - r.zero_position) = n := by
        field_simp
        ring
      rw [key, clamp_eq_self h0 h1]
    · have hlt : n < r.zero_position := not_le.mp hzn
      have hv : (r.zero_position - n) / r.zero_position * r.min < 0 :=
        mul_neg_of_pos_of_neg (div_pos (by linarith) hz0) hmin
      unfold LogDBRange.to_value LogDBRange.to_normal
      rw [if_neg hzn, if_neg (not_le.mpr hv)]
      have key : r.zero_position -
          (r.zero_position - n) / r.zero_position * r.min / r.min *
            r.zero_position = n := by
        have hzne : r.zero_position ≠ 0 := hz0.ne'
        have hmne : r.min ≠ 0 := hmin.ne
        field_simp
        ring
      rw [key, clamp_eq_self h0 h1]
  · intro v hv0 hv1
    by_cases hv : 0 ≤ v
    · have hq0 : 0 ≤ v / r.max := div_nonneg hv hmax.le
      have hq1 : v / r.max ≤ 1 := by
        rw [div_le_one hmax]
        exact hv1
      have h0' : 0 ≤ r.zero_position + v / r.max * (1 - r.zero_position) :=
        add_nonneg hz0.le (mul_nonneg hq0 h1z.le)
      have h1' : r.zero_position + v / r.max * (1 - r.zero_position) ≤ 1 := by
        nlinarith
      unfold LogDBRange.to_normal LogDBRange.to_value
      rw [if_pos hv, clamp_eq_self h0' h1',
        if_pos (le_add_of_nonneg_right (mul_nonneg hq0 h1z.le))]
      field_simp
      ring
    · have hvneg : v < 0 := not_le.mp hv
      have hq0 : 0 < v / r.min := div_pos_of_neg_of_neg hvneg hmin
      have hq1 : v / r.min ≤ 1 := (div_le_one_of_neg hmin).mpr hv0
      have h0' : 0 ≤ r.zero_position - v / r.min * r.zero_position := by
        nlinarith
      have h1' : r.zero_position - v / r.min * r.zero_position ≤ 1 := by
        nlinarith
      have hbr :
          ¬ r.zero_position ≤ r.zero_position - v / r.min * r.zero_position := by
        have : 0 < v / r.min * r.zero_position := mul_pos hq0 hz0
        linarith
      unfold LogDBRange.to_normal LogDBRange.to_value
      rw [if_neg hv, clamp_eq_self h0' h1', if_neg hbr]
      have hzne : r.zero_position ≠ 0 := hz0.ne'
      have hmne : r.min ≠ 0 := hmin.ne
      field_simp
      ring

/-- Round trips of the Logarithmic-Frequency range: exact on valid normals
and on in-bounds frequencies, in the real-valued model. -/
theorem freqRange_roundtrip (r : FreqRange) (hmin : 0 < r.min)
    (hlt : r.min < r.max) :
    (∀ n : ℝ, 0 ≤ n → n ≤ 1 → r.to_normal (r.to_value n) = n) ∧
    (∀ f : ℝ, r.min ≤ f → f ≤ r.max → r.to_value (r.to_normal f) = f) := by
  have hb : (1:ℝ) < 2 := one_lt_two
  have hratio : 1 < r.max / r.min := (one_lt_div hmin).mpr hlt
  have hL : 0 < Real.logb 2 (r.max / r.min) := Real.logb_pos hb hratio
  constructor
  · intro n h0 h1
    unfold FreqRange.to_value FreqRange.to_normal
    rw [mul_div_cancel_left₀ _ hmin.ne',
      Real.logb_rpow (by norm_num) (by norm_num),
      mul_div_cancel_right₀ n hL.ne']
    exact clampR_eq_self h0 h1
  · intro f hf0 hf1
    have hfpos : 0 < f := lt_of_lt_of_le hmin hf0
    have hq : 0 < f / r.min := div_pos hfpos hmin
    have h0' : 0 ≤ Real.logb 2 (f / r.min) / Real.logb 2 (r.max / r.min) :=
      div_nonneg (Real.logb_nonneg hb ((one_le_div hmin).mpr hf0)) hL.le
    have h1' : Real.logb 2 (f / r.min) / Real.logb 2 (r.max / r.min) ≤ 1 := by
      rw [div_le_one hL]
      apply Real.logb_le_logb_of_le hb hq
      gcongr
    unfold FreqRange.to_normal FreqRange.to_value
    rw [clampR_eq_self h0' h1', div_mul_cancel₀ _ hL.ne',
      Real.rpow_logb (by norm_num) (by norm_num) hq]
    field_simp

/-- C4 counterexample: for the Stepped-Int range over `[0, 5]` and the
valid normal `n = 0.1`, the normal round trip returns `0.2` (the snapped
normal), which misses `n` by `0.1` — far beyond the `1e-6` tolerance — so
the round-trip claim is false for unsnapped normals of a Stepped-Int
range. -/
theorem c4_range_roundtrip_counterexample :
    IntRange.to_normal { min := 0, max := 5 }
        (IntRange.to_value { min := 0, max := 5 } (1/10)) = 1/5 ∧
    ¬ |IntRange.to_normal { min := 0, max := 5 }
          (IntRange.to_value { min := 0, max := 5 } (1/10)) - 1/10| ≤
        1/1000000 := by
  have hval : IntRange.to_value { min := 0, max := 5 } (1/10) = 1 := by
    unfold IntRange.to_value
    norm_num [round_eq]
  have hnrm : IntRange.to_normal { min := 0, max := 5 }
      (IntRange.to_value { min := 0, max := 5 } (1/10)) = 1/5 := by
    rw [hval]
    unfold IntRange.to_normal
    norm_num [Normal.clamp]
  refine ⟨hnrm, ?_⟩
  rw [hnrm, show (1/5 - 1/10 : ℚ) = 1/10 by norm_num,
    abs_of_nonneg (by norm_num : (0:ℚ) ≤ 1/10)]
  norm_num

/-- C4 amended: for the three continuous ranges (Linear-Float,
Logarithmic-DB, Logarithmic-Frequency) the normal round trip
`to_normal (to_value n)` reproduces every valid normal exactly (in the
exact-arithmetic model, hence within any floating-point tolerance), and
the value round trip `to_value (to_normal v)` reproduces every in-bounds
value exactly; for Stepped-Int the normal round trip lands on
`snap_normal n` — reproducing exactly the normals that are already
snapped — and the value round trip is exact on every in-bounds integer. -/
theorem c4_range_roundtrips_amended :
    (∀ r : FloatRange, r.min < r.max →
      (∀ n : ℚ, 0 ≤ n → n ≤ 1 → r.to_normal (r.to_value n) = n) ∧
      (∀ v : ℚ, r.min ≤ v → v ≤ r.max → r.to_value (r.to_normal v) = v)) ∧
    (∀ r : IntRange, r.min < r.max →
      (∀ v : ℤ, r.min ≤ v → v ≤ r.max → r.to_value (r.to_normal v) = v) ∧
      (∀ n : ℚ, r.to_normal (r.to_value n) = r.snap_normal n) ∧
      (∀ n : ℚ, r.snap_normal n = n → r.to_normal (r.to_value n) = n)) ∧
    (∀ r : LogDBRange, r.min < 0 → 0 < r.max → 0 < r.zero_position →
      r.zero_position < 1 →
      (∀ n : ℚ, 0 ≤ n → n ≤ 1 → r.to_normal (r.to_value n) = n) ∧
      (∀ v : ℚ, r.min ≤ v → v ≤ r.max → r.to_value (r.to_normal v) = v)) ∧
    (∀ r : FreqRange, 0 < r.min → r.min < r.max →
      (∀ n : ℝ, 0 ≤ n → n ≤ 1 → r.to_normal (r.to_value n) = n) ∧
      (∀ f : ℝ, r.min ≤ f → f ≤ r.max → r.to_value (r.to_normal f) = f)) :=
  ⟨floatRange_roundtrip, intRange_roundtrip, logDBRange_roundtrip,
    freqRange_roundtrip⟩

/-- C4 amended witness: the round trips at one concrete instance of each
variant (the spec's own examples: a unipolar float range, the Stepped-Int
range `[0, 5]` at value `3`, the dB range `[-12, 12]` with centered zero
position at `6` dB, and the default frequency range at normal `0.5`). -/
theorem c4_range_roundtrips_amended_witness :
    ((0:ℚ) < 2) ∧ ((0:ℤ) < 5) ∧ ((-12:ℚ) < 0) ∧ ((0:ℚ) < 12) ∧
    ((0:ℚ) < 1/2) ∧ ((1/2:ℚ) < 1) ∧ ((0:ℝ) < 20) ∧ ((20:ℝ) < 20480) ∧
    FloatRange.to_value { min := 0, max := 2 }
        (FloatRange.to_normal { min := 0, max := 2 } 1) = 1 ∧
    IntRange.to_value { min := 0, max := 5 }
        (IntRange.to_normal { min := 0, max := 5 } 3) = 3 ∧
    LogDBRange.to_value { min := -12, max := 12, zero_position := 1/2 }
        (LogDBRange.to_normal { min := -12, max := 12, zero_position := 1/2 }
          6) = 6 ∧
    FreqRange.to_normal { min := 20, max := 20480 }
        (FreqRange.to_value { min := 20, max := 20480 } (1/2)) = 1/2 := by
  refine ⟨by norm_num, by norm_num, by norm_num, by norm_num, by norm_num,
    by norm_num, by norm_num, by norm_num, ?_, ?_, ?_, ?_⟩
  · exact (c4_range_roundtrips_amended.1 { min := 0, max := 2 }
      (by norm_num)).2 1 (by norm_num) (by norm_num)
  · exact (c4_range_roundtrips_amended.2.1 { min := 0, max := 5 }
      (by norm_num)).1 3 (by norm_num) (by norm_num)
  · exact (c4_range_roundtrips_amended.2.2.1
      { min := -12, max := 12, zero_position := 1/2 } (by norm_num)
      (by norm_num) (by norm_num) (by norm_num)).2 6 (by norm_num)
      (by norm_num)
  · exact (c4_range_roundtrips_amended.2.2.2 { min := 20, max := 20480 }
      (by norm_num) (by norm_num)).1 (1/2) (by norm_num) (by norm_num)

/-- C5: with the default scalars (base `0.98`, modifier `0.02`), two
pointer-moves from identical Dragging states with an identical pointer
delta, one with the configured modifiers matched and one without, change
the unclamped accumulator proportionally: the modifier-held change is
exactly `0.02 / 0.98` times the no-modifier change. -/
theorem c5_modifier_proportional {ID : Type} (classify : Classifier)
    (bounds : Rectangle) (cursor : Point) (s t : State ID)
    (m2 : ModifiersState) (hdrag : s.is_dragging = true)
    (hw : 0 < bounds.width)
    (hmatch : s.pressed_modifiers.matches Config.default.modifier_keys = true)
    (ht : t = { s with pressed_modifiers := m2 })
    (hnomatch : m2.matches Config.default.modifier_keys = false) :
    (on_event Config.default classify (Event.mouse MouseEvent.cursorMoved)
        bounds cursor s).1.continuous_normal - s.continuous_normal =
      (1/50) / (49/50) *
        ((on_event Config.default classify (Event.mouse MouseEvent.cursorMoved)
            bounds cursor t).1.continuous_normal - s.continuous_normal) := by
  subst ht
  simp [on_event, hdrag, hw, hmatch, hnomatch]
  simp [Config.default]
  ring

/-- C5 witness: the proportionality at a concrete drag state with the
control key held versus released. -/
theorem c5_modifier_proportional_witness :
    ({ midDragState with
        pressed_modifiers := { ModifiersState.empty with control := true }
      } : State ℕ).is_dragging = true ∧
    (0 : ℚ) < wideBounds.width ∧
    ({ midDragState with
        pressed_modifiers := { ModifiersState.empty with control := true }
      } : State ℕ).pressed_modifiers.matches Config.default.modifier_keys
      = true ∧
    ModifiersState.empty.matches Config.default.modifier_keys = false ∧
    ((on_event Config.default singleClassify
        (Event.mouse MouseEvent.cursorMoved) wideBounds { x := 10, y := 5 }
        { midDragState with
          pressed_modifiers :=
            { ModifiersState.empty with control := true } }).1.continuous_normal
        - (1/2 : ℚ) =
      (1/50) / (49/50) *
        ((on_event Config.default singleClassify
            (Event.mouse MouseEvent.cursorMoved) wideBounds
            { x := 10, y := 5 } midDragState).1.continuous_normal
          - (1/2 : ℚ))) := by
  refine ⟨rfl, by norm_num [wideBounds], by decide, by decide, ?_⟩
  have h := c5_modifier_proportional singleClassify wideBounds
    { x := 10, y := 5 }
    { midDragState with
      pressed_modifiers := { ModifiersState.empty with control := true } }
    midDragState ModifiersState.empty rfl (by norm_num [wideBounds])
    (by decide) rfl (by decide)
  exact h

/-- C6 counterexample state: a Dragging state with no modifier held. -/
def dragStateC6 : State ℕ :=
  { param := { id := 5, normal := 1/2, default_normal := 1/2 }
    modulation_range := none
    is_dragging := true
    prev_drag_x := 50
    continuous_normal := 1/2
    pressed_modifiers := ModifiersState.empty
    last_click := none }

/-- C6 counterexample: from a Dragging state, a left-button press inside
the bounds that the classifier reports as a double click also leaves the
Dragging state, although it is not a pointer-up event — so pointer-up is
not the only event that leaves Dragging. -/
theorem c6_dragging_exit_cex :
    dragStateC6.is_dragging = true ∧
    Event.mouse (MouseEvent.buttonPressed MouseButton.left) ≠
      Event.mouse (MouseEvent.buttonReleased MouseButton.left) ∧
    (on_event Config.default doubleClassify
        (Event.mouse (MouseEvent.buttonPressed MouseButton.left)) wideBounds
        { x := 50, y := 5 } dragStateC6).1.is_dragging = false := by
  refine ⟨rfl, by simp, ?_⟩
  norm_num [on_event, dragStateC6, doubleClassify, wideBounds,
    Rectangle.contains]

/-- C6 amended: while Dragging, the only events that leave the Dragging
state are a left-button release, or a left-button press inside the bounds
that the click classifier reports as a double or triple click (which
performs the default reset). -/
theorem c6_dragging_exit_amended {ID : Type} (cfg : Config)
    (classify : Classifier) (event : Event) (bounds : Rectangle)
    (cursor : Point) (s : State ID) (hdrag : s.is_dragging = true)
    (hexit :
      (on_event cfg classify event bounds cursor s).1.is_dragging = false) :
    event = Event.mouse (MouseEvent.buttonReleased MouseButton.left) ∨
      (event = Event.mouse (MouseEvent.buttonPressed MouseButton.left) ∧
        bounds.contains cursor ∧
        (classify cursor s.last_click).kind ≠ ClickKind.single) := by
  rcases event with mev | kev | _
  case mouse =>
    cases mev with
    | cursorMoved =>
      exfalso
      rcases lt_or_le 0 bounds.width with hw | hw
      · simp [on_event, hdrag, hw] at hexit
      · simp [on_event, hdrag, not_lt.mpr hw] at hexit
    | buttonPressed b =>
      cases b with
      | left =>
        by_cases hin : bounds.contains cursor
        · cases hclick : (classify cursor s.last_click).kind with
          | single =>
            exfalso
            simp [on_event, hin, hclick] at hexit
          | double =>
            exact Or.inr ⟨rfl, hin, by simp [hclick]⟩
          | triple =>
            exact Or.inr ⟨rfl, hin, by simp [hclick]⟩
        · exfalso
          simp [on_event, hin, hdrag] at hexit
      | right =>
        exfalso
        simp [on_event, hdrag] at hexit
      | middle =>
        exfalso
        simp [on_event, hdrag] at hexit
    | buttonReleased b =>
      cases b with
      | left => exact Or.inl rfl
      | right =>
        exfalso
        simp [on_event, hdrag] at hexit
      | middle =>
        exfalso
        simp [on_event, hdrag] at hexit
    | cursorEntered =>
      exfalso
      simp [on_event, hdrag] at hexit
    | cursorLeft =>
      exfalso
      simp [on_event, hdrag] at hexit
    | wheelScrolled =>
      exfalso
      simp [on_event, hdrag] at hexit
  case keyboard =>
    cases kev with
    | keyPressed m =>
      exfalso
      simp [on_event, hdrag] at hexit
    | keyReleased m =>
      exfalso
      simp [on_event, hdrag] at hexit
    | characterReceived =>
      exfalso
      simp [on_event, hdrag] at hexit
  case window =>
    exfalso
    simp [on_event, hdrag] at hexit

/-- C6 amended witness: a left-button release from a Dragging state leaves
Dragging, and the amended theorem classifies it as the release case. -/
theorem c6_dragging_exit_amended_witness :
    dragStateC6.is_dragging = true ∧
    (on_event Config.default singleClassify
        (Event.mouse (MouseEvent.buttonReleased MouseButton.left)) wideBounds
        { x := 50, y := 5 } dragStateC6).1.is_dragging = false ∧
    (Event.mouse (MouseEvent.buttonReleased MouseButton.left) =
        Event.mouse (MouseEvent.buttonReleased MouseButton.left) ∨
      (Event.mouse (MouseEvent.buttonReleased MouseButton.left) =
          Event.mouse (MouseEvent.buttonPressed MouseButton.left) ∧
        wideBounds.contains { x := 50, y := 5 } ∧
        (singleClassify { x := 50, y := 5 } dragStateC6.last_click).kind ≠
          ClickKind.single)) := by
  refine ⟨rfl, by simp [on_event], ?_⟩
  exact c6_dragging_exit_amended Config.default singleClassify
    (Event.mouse (MouseEvent.buttonReleased MouseButton.left)) wideBounds
    { x := 50, y := 5 } dragStateC6 rfl (by simp [on_event])

/-- C7: a pointer-move processed with non-positive bounds width leaves the
whole state unchanged and emits no notification: the division by the
bounds extent is guarded, so the event is a no-op rather than a fault. -/
theorem c7_degenerate_bounds {ID : Type} (cfg : Config)
    (classify : Classifier) (bounds : Rectangle) (cursor : Point)
    (s : State ID) (hw : bounds.width ≤ 0) :
    on_event cfg classify (Event.mouse MouseEvent.cursorMoved) bounds cursor
      s = (s, []) := by
  cases hdrag : s.is_dragging <;>
    simp [on_event, hdrag, not_lt.mpr hw]

/-- C7 witness: a move while dragging over zero-width bounds is a no-op. -/
theorem c7_degenerate_bounds_witness :
    ({ x := 0, y := 0, width := 0, height := 10 } : Rectangle).width ≤ 0 ∧
    on_event Config.default singleClassify
        (Event.mouse MouseEvent.cursorMoved)
        { x := 0, y := 0, width := 0, height := 10 } { x := 10, y := 5 }
        midDragState = (midDragState, []) := by
  exact ⟨le_refl 0,
    c7_degenerate_bounds Config.default singleClassify
      { x := 0, y := 0, width := 0, height := 10 } { x := 10, y := 5 }
      midDragState (le_refl 0)⟩

/-- C8: a key-pressed or key-released event, in any state, only replaces
the `pressed_modifiers` field with the event's modifier snapshot; every
other field is unchanged and no notification is emitted. -/
theorem c8_modifier_key_frame :
    (∀ {ID : Type} (cfg : Config) (classify : Classifier)
      (bounds : Rectangle) (cursor : Point) (s : State ID)
      (m : ModifiersState),
      on_event cfg classify (Event.keyboard (KeyboardEvent.keyPressed m))
        bounds cursor s = ({ s with pressed_modifiers := m }, [])) ∧
    (∀ {ID : Type} (cfg : Config) (classify : Classifier)
      (bounds : Rectangle) (cursor : Point) (s : State ID)
      (m : ModifiersState),
      on_event cfg classify (Event.keyboard (KeyboardEvent.keyReleased m))
        bounds cursor s = ({ s with pressed_modifiers := m }, [])) := by
  constructor <;> intro ID cfg classify bounds cursor s m <;> simp [on_event]

/-- C9: the invariant `continuous_normal = Param.normal` holds in a freshly
constructed state and is re-established by every left-button release, in
whatever state it is processed. -/
theorem c9_accumulator_invariant :
    (∀ {ID : Type} (param : Param ID),
      (State.new param).continuous_normal = (State.new param).param.normal) ∧
    (∀ {ID : Type} (cfg : Config) (classify : Classifier)
      (bounds : Rectangle) (cursor : Point) (s : State ID),
      (on_event cfg classify
          (Event.mouse (MouseEvent.buttonReleased MouseButton.left)) bounds
          cursor s).1.continuous_normal =
        (on_event cfg classify
            (Event.mouse (MouseEvent.buttonReleased MouseButton.left)) bounds
            cursor s).1.param.normal) := by
  constructor
  · intro ID param
    rfl
  · intro ID cfg classify bounds cursor s
    simp [on_event]

/-- C10: events that qualify for no transition — a left press outside the
bounds, a move while not Dragging, any non-left button press or release,
and the remaining unhandled events — leave every field of the state
unchanged and emit no notification. -/
theorem c10_noop_events {ID : Type} (cfg : Config) (classify : Classifier)
    (event : Event) (bounds : Rectangle) (cursor : Point) (s : State ID)
    (h :
      (event = Event.mouse (MouseEvent.buttonPressed MouseButton.left) ∧
        ¬ bounds.contains cursor) ∨
      (event = Event.mouse MouseEvent.cursorMoved ∧ s.is_dragging = false) ∨
      (∃ b, b ≠ MouseButton.left ∧
        (event = Event.mouse (MouseEvent.buttonPressed b) ∨
          event = Event.mouse (MouseEvent.buttonReleased b))) ∨
      event = Event.mouse MouseEvent.cursorEntered ∨
      event = Event.mouse MouseEvent.cursorLeft ∨
      event = Event.mouse MouseEvent.wheelScrolled ∨
      event = Event.keyboard KeyboardEvent.characterReceived ∨
      event = Event.window) :
    on_event cfg classify event bounds cursor s = (s, []) := by
  rcases h with ⟨rfl, hout⟩ | ⟨rfl, hdrag⟩ | ⟨b, hb, rfl | rfl⟩ |
    rfl | rfl | rfl | rfl | rfl
  · simp [on_event, hout]
  · simp [on_event, hdrag]
  · cases b
    case left => exact absurd rfl hb
    case right => simp [on_event]
    case middle => simp [on_event]
  · cases b
    case left => exact absurd rfl hb
    case right => simp [on_event]
    case middle => simp [on_event]
  · simp [on_event]
  · simp [on_event]
  · simp [on_event]
  · simp [on_event]
  · simp [on_event]

/-- C10 witness: a left press outside the bounds from a fresh state is a
no-op. -/
theorem c10_noop_events_witness :
    ¬ wideBounds.contains { x := 200, y := 5 } ∧
    on_event Config.default singleClassify
        (Event.mouse (MouseEvent.buttonPressed MouseButton.left)) wideBounds
        { x := 200, y := 5 } midDragState = (midDragState, []) := by
  have hout : ¬ wideBounds.contains { x := 200, y := 5 } := by
    norm_num [Rectangle.contains, wideBounds]
  exact ⟨hout,
    c10_noop_events Config.default singleClassify
      (Event.mouse (MouseEvent.buttonPressed MouseButton.left)) wideBounds
      { x := 200, y := 5 } midDragState (Or.inl ⟨rfl, hout⟩)⟩

end IcedAudio
